import Mathlib

/-!
# asynqmon: conversion helpers

A shallow embedding of `conversion_helpers.go`, the layer that projects the
queue engine's statistics and task records into the serialisable snapshot
types of the monitoring API.

Modelling conventions.

* Go's `int` is the 64-bit two's complement integer: a value of type `GoInt`
  is an integer in `[-2^63, 2^63 - 1]` and subtraction wraps modulo `2^64`.
* A Go pointer `*T` is `Ptr T`, that is `Option T`, where `none` is `nil`.
  Reading a field through a nil pointer is the run-time panic
  `Panic.nilDereference`; functions that can panic return `Except Panic _`.
* A Go slice is `Slice α`: either the nil slice or a non-nil slice holding a
  list of elements (possibly none).
* `time.Time` is declared outside this package; the code only copies its
  values, so it is a type parameter (`T`). The projections copy the payload
  whatever it is, so they are stated for an arbitrary payload type `P`; the
  library's own `asynq.Payload`, a struct around a Go map, is `asynq.Payload`
  below, with the map contents kept in an explicit `Heap`.
* The records of package `asynq` are declared outside this package too. The
  statistics records are modelled with the fields that the code reads from
  them. The five task records embed a pointer `*asynq.Task`, through which
  the promoted fields `Type` and `Payload` are read: reading them on a record
  whose embedded pointer is nil is a nil dereference.
-/

namespace Asynqmon

/-! ## Machine integers -/

/-- Smallest value of Go's 64-bit `int`. -/
def intMin : Int := -9223372036854775808

/-- Largest value of Go's 64-bit `int`. -/
def intMax : Int := 9223372036854775807

/-- Two's complement wrap-around of a mathematical integer into 64 bits. -/
def wrap64 (x : Int) : Int :=
  (x + 9223372036854775808) % 18446744073709551616 - 9223372036854775808

/-- Values of Go's `int`. -/
abbrev GoInt : Type := { x : Int // intMin ≤ x ∧ x ≤ intMax }

/-- Conversion of a mathematical integer to `int`, wrapping on overflow. -/
def GoInt.ofInt (x : Int) : GoInt :=
  ⟨wrap64 x, by unfold wrap64 intMin intMax; omega⟩

/-- Go's `a - b` on `int`. -/
def GoInt.sub (a b : GoInt) : GoInt := GoInt.ofInt (a.val - b.val)

/-- Go's `a + b` on `int`. -/
def GoInt.add (a b : GoInt) : GoInt := GoInt.ofInt (a.val + b.val)

/-! ## Pointers, panics, slices -/

/-- Run-time panics the code can reach. -/
inductive Panic where
  | nilDereference
  | indexOutOfRange
  deriving DecidableEq, Repr

/-- A Go pointer: `none` is `nil`. -/
abbrev Ptr (α : Type) : Type := Option α

/-- A Go slice: the nil slice, or a non-nil slice with its elements. -/
inductive Slice (α : Type) where
  | nil : Slice α
  | mk (elems : List α) : Slice α
  deriving DecidableEq, Repr

/-- The elements a `range` loop visits. -/
def Slice.elems {α : Type} : Slice α → List α
  | Slice.nil => []
  | Slice.mk xs => xs

/-- Go's `len`. -/
def Slice.len {α : Type} (s : Slice α) : Nat := s.elems.length

/-- Go's `s == nil`. -/
def Slice.isNil {α : Type} : Slice α → Bool
  | Slice.nil => true
  | Slice.mk _ => false

/-- Go's `make([]*β, n)`: a non-nil slice of `n` nil pointers. -/
def make {β : Type} (n : Nat) : Slice (Ptr β) := Slice.mk (List.replicate n none)

/-! ## Source records (package `asynq`) -/

namespace asynq

/-- The fields of `asynq.QueueStats` read by `toQueueStateSnapshot`. -/
structure QueueStats (T : Type) where
  Queue : String
  Size : GoInt
  Active : GoInt
  Pending : GoInt
  Scheduled : GoInt
  Retry : GoInt
  Dead : GoInt
  Processed : GoInt
  Failed : GoInt
  Paused : Bool
  Timestamp : T

/-- The fields of `asynq.DailyStats` read by `toDailyStats`. -/
structure DailyStats (T : Type) where
  Queue : String
  Processed : GoInt
  Failed : GoInt
  Date : T

/-- The library's `asynq.Task`: the type name and the payload of a task. The
Go field `Type` is spelled `Type_` here. -/
structure Task (P : Type) where
  Type_ : String
  Payload : P

/-- The library's `asynq.ActiveTask`: it embeds `*asynq.Task`, whose fields
`Type` and `Payload` are promoted. -/
structure ActiveTask (P : Type) where
  Task : Ptr (Task P)
  ID : String
  Queue : String

/-- The library's `asynq.PendingTask`: it embeds `*asynq.Task`, whose fields
`Type` and `Payload` are promoted. -/
structure PendingTask (P : Type) where
  Task : Ptr (Task P)
  ID : String
  Queue : String

/-- The library's `asynq.ScheduledTask`, with the fields read by
`toScheduledTask`: it embeds `*asynq.Task`. -/
structure ScheduledTask (T P : Type) where
  Task : Ptr (Task P)
  ID : String
  Queue : String
  NextProcessAt : T

/-- The library's `asynq.RetryTask`, with the fields read by `toRetryTask`: it
embeds `*asynq.Task`. -/
structure RetryTask (T P : Type) where
  Task : Ptr (Task P)
  ID : String
  Queue : String
  NextProcessAt : T
  MaxRetry : GoInt
  Retried : GoInt
  ErrorMsg : String

/-- The library's `asynq.DeadTask`, with the fields read by `toDeadTask`: it
embeds `*asynq.Task`. -/
structure DeadTask (T P : Type) where
  Task : Ptr (Task P)
  ID : String
  Queue : String
  MaxRetry : GoInt
  Retried : GoInt
  LastFailedAt : T
  ErrorMsg : String

/-- The library's `asynq.Payload`: a struct whose single field `data` is a Go
map. A map value is a reference: here the address of the map object in the
heap. Copying the struct copies the reference, not the map object. -/
structure Payload where
  data : Nat
  deriving DecidableEq, Repr

end asynq

/-! ## Map objects -/

/-- The contents of a Go map with string keys; the stored values are modelled
as strings. -/
abbrev MapContents : Type := String → Option String

/-- The heap of map objects: the contents of the map at each address. -/
abbrev Heap : Type := Nat → MapContents

/-- Go's `m[key] = val` on the map object at address `m`. -/
def Heap.mapassign (h : Heap) (m : Nat) (key val : String) : Heap :=
  fun a => if a = m then (fun k => if k = key then some val else h a k) else h a

/-- Go's `m[key]` on the map object at address `m`. -/
def Heap.mapaccess (h : Heap) (m : Nat) (key : String) : Option String := h m key

/-! ## Queue statistics -/

structure QueueStateSnapshot (T : Type) where
  Queue : String
  Size : GoInt
  Active : GoInt
  Pending : GoInt
  Scheduled : GoInt
  Retry : GoInt
  Dead : GoInt
  Processed : GoInt
  Succeeded : GoInt
  Failed : GoInt
  Paused : Bool
  Timestamp : T

def toQueueStateSnapshot {T : Type} (s : Ptr (asynq.QueueStats T)) :
    Except Panic (QueueStateSnapshot T) :=
  match s with
  | none => Except.error Panic.nilDereference
  | some s =>
    Except.ok
      { Queue := s.Queue
        Size := s.Size
        Active := s.Active
        Pending := s.Pending
        Scheduled := s.Scheduled
        Retry := s.Retry
        Dead := s.Dead
        Processed := s.Processed
        Succeeded := GoInt.sub s.Processed s.Failed
        Failed := s.Failed
        Paused := s.Paused
        Timestamp := s.Timestamp }

structure DailyStats (T : Type) where
  Queue : String
  Processed : GoInt
  Succeeded : GoInt
  Failed : GoInt
  Date : T

def toDailyStats {T : Type} (s : Ptr (asynq.DailyStats T)) : Except Panic (DailyStats T) :=
  match s with
  | none => Except.error Panic.nilDereference
  | some s =>
    Except.ok
      { Queue := s.Queue
        Processed := s.Processed
        Succeeded := GoInt.sub s.Processed s.Failed
        Failed := s.Failed
        Date := s.Date }

/-! ## Tasks -/

/-- The identity block shared by the five task variants. The Go field `Type`
is spelled `Type_` here. -/
structure BaseTask (P : Type) where
  ID : String
  Type_ : String
  Payload : P
  Queue : String

/-- Go's `out[i] = v`: panics when `i` is not an index of `out`. -/
def Slice.set {α : Type} (out : Slice α) (i : Nat) (v : α) : Except Panic (Slice α) :=
  match out with
  | Slice.nil => Except.error Panic.indexOutOfRange
  | Slice.mk xs =>
    if i < xs.length then Except.ok (Slice.mk (xs.set i v))
    else Except.error Panic.indexOutOfRange

/-- The loop `for i, t := range in { out[i] = f(t) }`, resumed at index `i`
with the elements of `in` that remain to be visited. The address returned by
`f` is stored as a non-nil pointer. -/
def rangeAssign {α β : Type} (f : Ptr α → Except Panic β) :
    List (Ptr α) → Nat → Slice (Ptr β) → Except Panic (Slice (Ptr β))
  | [], _, out => Except.ok out
  | t :: rest, i, out =>
    match f t with
    | Except.error e => Except.error e
    | Except.ok r =>
      match out.set i (some r) with
      | Except.error e => Except.error e
      | Except.ok out2 => rangeAssign f rest (i + 1) out2

structure ActiveTask (P : Type) where
  BaseTask : Ptr (BaseTask P)

def toActiveTask {P : Type} (t : Ptr (asynq.ActiveTask P)) :
    Except Panic (ActiveTask P) :=
  match t with
  | none => Except.error Panic.nilDereference
  | some t =>
    match t.Task with
    | none => Except.error Panic.nilDereference
    | some task =>
      let base : BaseTask P :=
        { ID := t.ID
          Type_ := task.Type_
          Payload := task.Payload
          Queue := t.Queue }
      Except.ok { BaseTask := some base }

def toActiveTasks {P : Type} (in_ : Slice (Ptr (asynq.ActiveTask P))) :
    Except Panic (Slice (Ptr (ActiveTask P))) :=
  let out : Slice (Ptr (ActiveTask P)) := make in_.len
  rangeAssign toActiveTask in_.elems 0 out

structure PendingTask (P : Type) where
  BaseTask : Ptr (BaseTask P)

def toPendingTask {P : Type} (t : Ptr (asynq.PendingTask P)) :
    Except Panic (PendingTask P) :=
  match t with
  | none => Except.error Panic.nilDereference
  | some t =>
    match t.Task with
    | none => Except.error Panic.nilDereference
    | some task =>
      let base : BaseTask P :=
        { ID := t.ID
          Type_ := task.Type_
          Payload := task.Payload
          Queue := t.Queue }
      Except.ok { BaseTask := some base }

def toPendingTasks {P : Type} (in_ : Slice (Ptr (asynq.PendingTask P))) :
    Except Panic (Slice (Ptr (PendingTask P))) :=
  let out : Slice (Ptr (PendingTask P)) := make in_.len
  rangeAssign toPendingTask in_.elems 0 out

structure ScheduledTask (T P : Type) where
  BaseTask : Ptr (BaseTask P)
  NextProcessAt : T

def toScheduledTask {T P : Type} (t : Ptr (asynq.ScheduledTask T P)) :
    Except Panic (ScheduledTask T P) :=
  match t with
  | none => Except.error Panic.nilDereference
  | some t =>
    match t.Task with
    | none => Except.error Panic.nilDereference
    | some task =>
      let base : BaseTask P :=
        { ID := t.ID
          Type_ := task.Type_
          Payload := task.Payload
          Queue := t.Queue }
      Except.ok
        { BaseTask := some base
          NextProcessAt := t.NextProcessAt }

def toScheduledTasks {T P : Type} (in_ : Slice (Ptr (asynq.ScheduledTask T P))) :
    Except Panic (Slice (Ptr (ScheduledTask T P))) :=
  let out : Slice (Ptr (ScheduledTask T P)) := make in_.len
  rangeAssign toScheduledTask in_.elems 0 out

structure RetryTask (T P : Type) where
  BaseTask : Ptr (BaseTask P)
  NextProcessAt : T
  MaxRetry : GoInt
  Retried : GoInt
  ErrorMsg : String

def toRetryTask {T P : Type} (t : Ptr (asynq.RetryTask T P)) :
    Except Panic (RetryTask T P) :=
  match t with
  | none => Except.error Panic.nilDereference
  | some t =>
    match t.Task with
    | none => Except.error Panic.nilDereference
    | some task =>
      let base : BaseTask P :=
        { ID := t.ID
          Type_ := task.Type_
          Payload := task.Payload
          Queue := t.Queue }
      Except.ok
        { BaseTask := some base
          NextProcessAt := t.NextProcessAt
          MaxRetry := t.MaxRetry
          Retried := t.Retried
          ErrorMsg := t.ErrorMsg }

def toRetryTasks {T P : Type} (in_ : Slice (Ptr (asynq.RetryTask T P))) :
    Except Panic (Slice (Ptr (RetryTask T P))) :=
  let out : Slice (Ptr (RetryTask T P)) := make in_.len
  rangeAssign toRetryTask in_.elems 0 out

structure DeadTask (T P : Type) where
  BaseTask : Ptr (BaseTask P)
  MaxRetry : GoInt
  Retried : GoInt
  ErrorMsg : String
  LastFailedAt : T

def toDeadTask {T P : Type} (t : Ptr (asynq.DeadTask T P)) :
    Except Panic (DeadTask T P) :=
  match t with
  | none => Except.error Panic.nilDereference
  | some t =>
    match t.Task with
    | none => Except.error Panic.nilDereference
    | some task =>
      let base : BaseTask P :=
        { ID := t.ID
          Type_ := task.Type_
          Payload := task.Payload
          Queue := t.Queue }
      Except.ok
        { BaseTask := some base
          MaxRetry := t.MaxRetry
          Retried := t.Retried
          ErrorMsg := t.ErrorMsg
          LastFailedAt := t.LastFailedAt }

def toDeadTasks {T P : Type} (in_ : Slice (Ptr (asynq.DeadTask T P))) :
    Except Panic (Slice (Ptr (DeadTask T P))) :=
  let out : Slice (Ptr (DeadTask T P)) := make in_.len
  rangeAssign toDeadTask in_.elems 0 out

/-! ## Example inputs -/

/-- The aggregate statistics of the `email` queue: 100 processed, 7 failed. -/
def emailStats : asynq.QueueStats Nat :=
  { Queue := "email"
    Size := GoInt.ofInt 10
    Active := GoInt.ofInt 2
    Pending := GoInt.ofInt 5
    Scheduled := GoInt.ofInt 1
    Retry := GoInt.ofInt 1
    Dead := GoInt.ofInt 1
    Processed := GoInt.ofInt 100
    Failed := GoInt.ofInt 7
    Paused := false
    Timestamp := 1600000000 }

/-- The daily statistics of the `email` queue on one day: 40 processed, 4 failed. -/
def emailDaily : asynq.DailyStats Nat :=
  { Queue := "email"
    Processed := GoInt.ofInt 40
    Failed := GoInt.ofInt 4
    Date := 18500 }

/-- Malformed statistics with more failures than processed tasks. -/
def malformedStats : asynq.QueueStats Nat :=
  { emailStats with
    Processed := GoInt.ofInt 3
    Failed := GoInt.ofInt 10 }

/-- Malformed statistics at the lower end of `int`: the difference
`Processed - Failed` is not representable. -/
def overflowStats : asynq.QueueStats Nat :=
  { emailStats with
    Processed := GoInt.ofInt (-9223372036854775808)
    Failed := GoInt.ofInt 1 }

/-- The task `send_email` to alice. -/
def aliceTask : asynq.Task String :=
  { Type_ := "send_email"
    Payload := "to=alice" }

/-- The task `send_email` to bob. -/
def bobTask : asynq.Task String :=
  { Type_ := "send_email"
    Payload := "to=bob" }

/-- The retry task of the `email` queue. -/
def emailRetry : asynq.RetryTask Nat String :=
  { Task := some aliceTask
    ID := "abc"
    Queue := "email"
    NextProcessAt := 1600000060
    MaxRetry := GoInt.ofInt 5
    Retried := GoInt.ofInt 2
    ErrorMsg := "smtp timeout" }

/-- A second retry task of the `email` queue. -/
def emailRetry2 : asynq.RetryTask Nat String :=
  { Task := some bobTask
    ID := "def"
    Queue := "email"
    NextProcessAt := 1600000120
    MaxRetry := GoInt.ofInt 5
    Retried := GoInt.ofInt 0
    ErrorMsg := "" }

/-- A scheduled task of the `email` queue. -/
def emailScheduled : asynq.ScheduledTask Nat String :=
  { Task := some bobTask
    ID := "ghi"
    Queue := "email"
    NextProcessAt := 1600000300 }

/-- An active task of the `email` queue. -/
def emailActive : asynq.ActiveTask String :=
  { Task := some aliceTask
    ID := "jkl"
    Queue := "email" }

/-- A pending task of the `email` queue. -/
def emailPending : asynq.PendingTask String :=
  { Task := some bobTask
    ID := "mno"
    Queue := "email" }

/-- A dead task of the `email` queue. -/
def emailDead : asynq.DeadTask Nat String :=
  { Task := some aliceTask
    ID := "d1"
    Queue := "email"
    MaxRetry := GoInt.ofInt 5
    Retried := GoInt.ofInt 5
    LastFailedAt := 1600000500
    ErrorMsg := "smtp timeout" }

/-- The Go value `&asynq.DeadTask{ID: "d9"}`: a non-nil record whose embedded
`*asynq.Task` is nil and whose other fields have their zero values. -/
def bareDead : asynq.DeadTask Nat String :=
  { Task := none
    ID := "d9"
    Queue := ""
    MaxRetry := GoInt.ofInt 0
    Retried := GoInt.ofInt 0
    LastFailedAt := 0
    ErrorMsg := "" }

/-- The Go value `&asynq.ActiveTask{ID: "a9"}`: a non-nil record whose
embedded `*asynq.Task` is nil. -/
def bareActive : asynq.ActiveTask String :=
  { Task := none
    ID := "a9"
    Queue := "" }

/-- The Go value `&asynq.ScheduledTask{ID: "s9"}`: a non-nil record whose
embedded `*asynq.Task` is nil. -/
def bareScheduled : asynq.ScheduledTask Nat String :=
  { Task := none
    ID := "s9"
    Queue := ""
    NextProcessAt := 0 }

/-- A heap with one map object, at address 0, holding `to = alice`. -/
def aliceHeap : Heap :=
  fun a => if a = 0 then (fun k => if k = "to" then some "alice" else none) else fun _ => none

/-- The task `send_email` whose payload is the map object at address 0. -/
def mapTask : asynq.Task asynq.Payload :=
  { Type_ := "send_email"
    Payload := { data := 0 } }

/-- An active task whose payload is the map object at address 0. -/
def mapActive : asynq.ActiveTask asynq.Payload :=
  { Task := some mapTask
    ID := "abc"
    Queue := "email" }

/-! ## Arithmetic of the derived count -/

theorem wrap64_of_range (x : Int) (hlo : intMin ≤ x) (hhi : x ≤ intMax) : wrap64 x = x := by
  unfold wrap64
  unfold intMin at hlo
  unfold intMax at hhi
  omega

theorem GoInt.sub_val_of_le (a b : GoInt) (h0 : 0 ≤ b.val) (h1 : b.val ≤ a.val) :
    (GoInt.sub a b).val = a.val - b.val := by
  have ha := a.property
  have hb := b.property
  show wrap64 (a.val - b.val) = a.val - b.val
  apply wrap64_of_range
  · unfold intMin; omega
  · omega

theorem GoInt.add_sub_cancel (a b : GoInt) : GoInt.add (GoInt.sub a b) b = a := by
  apply Subtype.ext
  show wrap64 (wrap64 (a.val - b.val) + b.val) = a.val
  have ha := a.property
  have hb := b.property
  unfold intMin intMax at ha hb
  unfold wrap64
  omega

/-! ## The list loop -/

/-- The results of `f` on the elements of a list, when `f` returns on each. -/
theorem exists_results {α β : Type} (f : Ptr α → Except Panic β) :
    ∀ l : List (Ptr α), (∀ p ∈ l, ∃ r, f p = Except.ok r) →
      ∃ rs : List β, List.Forall₂ (fun p r => f p = Except.ok r) l rs := by
  intro l
  induction l with
  | nil =>
    intro _
    exact ⟨[], List.Forall₂.nil⟩
  | cons p rest ih =>
    intro h
    obtain ⟨r, hr⟩ := h p (List.mem_cons_self p rest)
    obtain ⟨rs, hrs⟩ := ih (fun q hq => h q (List.mem_cons_of_mem p hq))
    exact ⟨r :: rs, List.Forall₂.cons hr hrs⟩

theorem forall2_index {α β : Type} (R : α → β → Prop) {l : List α} {rs : List β}
    (h : List.Forall₂ R l rs) :
    ∀ (i : Nat) (p : α), l[i]? = some p → ∃ r, rs[i]? = some r ∧ R p r := by
  induction h with
  | nil =>
    intro i p hp
    simp at hp
  | cons hr _ ih =>
    intro i p hp
    cases i with
    | zero =>
      simp at hp
      subst hp
      exact ⟨_, by simp, hr⟩
    | succ j =>
      simp at hp
      obtain ⟨r, hr2, hR⟩ := ih j p hp
      exact ⟨r, by simpa using hr2, hR⟩

theorem rangeAssign_resume {α β : Type} (f : Ptr α → Except Panic β)
    {l : List (Ptr α)} {rs : List β}
    (h : List.Forall₂ (fun p r => f p = Except.ok r) l rs) :
    ∀ (i : Nat) (pre post : List (Ptr β)), i = pre.length → l.length ≤ post.length →
      rangeAssign f l i (Slice.mk (pre ++ post))
        = Except.ok (Slice.mk (pre ++ rs.map some ++ post.drop l.length)) := by
  induction h with
  | nil =>
    intro i pre post _ _
    simp [rangeAssign]
  | @cons p r rest rs2 hr _ ih =>
    intro i pre post hi hlen
    cases post with
    | nil => simp at hlen
    | cons q post2 =>
      have hlen2 : rest.length ≤ post2.length := by simpa using hlen
      have hset : (pre ++ q :: post2).set i (some r) = (pre ++ [some r]) ++ post2 := by
        subst hi
        simp
      have hlt : i < (pre ++ q :: post2).length := by
        subst hi
        simp
      have hstep := ih (i + 1) (pre ++ [some r]) post2 (by simp [hi]) hlen2
      simp only [rangeAssign, hr, Slice.set, hlt, if_true, hset, hstep]
      simp

theorem rangeAssign_make {α β : Type} (f : Ptr α → Except Panic β) (s : Slice (Ptr α))
    (rs : List β) (h : List.Forall₂ (fun p r => f p = Except.ok r) s.elems rs) :
    rangeAssign f s.elems 0 (make s.len) = Except.ok (Slice.mk (rs.map some)) := by
  have h2 := rangeAssign_resume f h 0 [] (List.replicate s.elems.length none) rfl (by simp)
  simpa [make, Slice.len] using h2

theorem rangeAssign_elementwise {α β : Type} (f : Ptr α → Except Panic β)
    (s : Slice (Ptr α)) (hall : ∀ p ∈ s.elems, ∃ r, f p = Except.ok r) :
    ∃ out, rangeAssign f s.elems 0 (make s.len) = Except.ok out
      ∧ out.len = s.len
      ∧ ∀ (i : Nat) (p : Ptr α), s.elems[i]? = some p →
          ∃ r, f p = Except.ok r ∧ out.elems[i]? = some (some r) := by
  obtain ⟨rs, hrs⟩ := exists_results f s.elems hall
  refine ⟨_, rangeAssign_make f s rs hrs, ?_, ?_⟩
  · show (rs.map some).length = s.elems.length
    rw [List.length_map]
    exact hrs.length_eq.symm
  · intro i p hp
    obtain ⟨r, hr, hf⟩ := forall2_index _ hrs i p hp
    exact ⟨r, hf, by simp [Slice.elems, hr]⟩

theorem rangeAssign_empty {α β : Type} (f : Ptr α → Except Panic β) (s : Slice (Ptr α))
    (hs : s.len = 0) :
    rangeAssign f s.elems 0 (make s.len) = Except.ok (Slice.mk []) := by
  have he : s.elems = [] := List.length_eq_zero.mp hs
  simp [hs, he, rangeAssign, make]

/-- When every panic of `f` is a nil dereference, so is the panic of the loop
on a list holding an element on which `f` panics. -/
theorem rangeAssign_resume_error {α β : Type} (f : Ptr α → Except Panic β)
    (herr : ∀ p e, f p = Except.error e → e = Panic.nilDereference) (l : List (Ptr α)) :
    ∀ (i : Nat) (pre post : List (Ptr β)), i = pre.length → l.length ≤ post.length →
      (∃ p ∈ l, ∃ e, f p = Except.error e) →
        rangeAssign f l i (Slice.mk (pre ++ post)) = Except.error Panic.nilDereference := by
  induction l with
  | nil =>
    intro i pre post _ _ hmem
    simp at hmem
  | cons p rest ih =>
    intro i pre post hi hlen hmem
    cases hp : f p with
    | error e =>
      have he := herr p e hp
      subst he
      simp [rangeAssign, hp]
    | ok r =>
      have hrest : ∃ q ∈ rest, ∃ e, f q = Except.error e := by
        obtain ⟨q, hq, e, he⟩ := hmem
        rcases List.mem_cons.mp hq with hqp | hqr
        · subst hqp
          rw [hp] at he
          cases he
        · exact ⟨q, hqr, e, he⟩
      cases post with
      | nil => simp at hlen
      | cons q post2 =>
        have hlen2 : rest.length ≤ post2.length := by simpa using hlen
        have hset : (pre ++ q :: post2).set i (some r) = (pre ++ [some r]) ++ post2 := by
          subst hi
          simp
        have hlt : i < (pre ++ q :: post2).length := by
          subst hi
          simp
        have hstep := ih (i + 1) (pre ++ [some r]) post2 (by simp [hi]) hlen2 hrest
        simp only [rangeAssign, hp, Slice.set, hlt, if_true, hset, hstep]

theorem rangeAssign_make_error {α β : Type} (f : Ptr α → Except Panic β)
    (herr : ∀ p e, f p = Except.error e → e = Panic.nilDereference) (s : Slice (Ptr α))
    (hmem : ∃ p ∈ s.elems, ∃ e, f p = Except.error e) :
    rangeAssign f s.elems 0 (make s.len) = Except.error Panic.nilDereference := by
  have h := rangeAssign_resume_error f herr s.elems 0 []
    (List.replicate s.elems.length none) rfl (by simp) hmem
  simpa [make, Slice.len] using h

theorem rangeAssign_make_ok_iff {α β : Type} (f : Ptr α → Except Panic β)
    (herr : ∀ p e, f p = Except.error e → e = Panic.nilDereference) (s : Slice (Ptr α)) :
    (∃ out, rangeAssign f s.elems 0 (make s.len) = Except.ok out)
      ↔ ∀ p ∈ s.elems, ∃ r, f p = Except.ok r := by
  constructor
  · rintro ⟨out, hout⟩ p hp
    cases hfp : f p with
    | ok r => exact ⟨r, rfl⟩
    | error e =>
      rw [rangeAssign_make_error f herr s ⟨p, hp, e, hfp⟩] at hout
      cases hout
  · intro hall
    obtain ⟨out, hout, _⟩ := rangeAssign_elementwise f s hall
    exact ⟨out, hout⟩

/-! ## The single-task projections -/

theorem toActiveTask_some {P : Type} (t : asynq.ActiveTask P) (k : asynq.Task P)
    (h : t.Task = some k) :
    toActiveTask (some t)
      = Except.ok ⟨some ⟨t.ID, k.Type_, k.Payload, t.Queue⟩⟩ := by
  simp [toActiveTask, h]

theorem toActiveTask_error {P : Type} (p : Ptr (asynq.ActiveTask P)) (e : Panic)
    (h : toActiveTask p = Except.error e) : e = Panic.nilDereference := by
  cases p with
  | none =>
    simp [toActiveTask] at h
    exact h.symm
  | some t =>
    cases hk : t.Task with
    | none =>
      simp [toActiveTask, hk] at h
      exact h.symm
    | some k => simp [toActiveTask, hk] at h

theorem toActiveTask_ok_iff {P : Type} (p : Ptr (asynq.ActiveTask P)) :
    (∃ r, toActiveTask p = Except.ok r) ↔ ∃ t k, p = some t ∧ t.Task = some k := by
  constructor
  · rintro ⟨r, hr⟩
    cases p with
    | none => simp [toActiveTask] at hr
    | some t =>
      cases hk : t.Task with
      | none => simp [toActiveTask, hk] at hr
      | some k => exact ⟨t, k, rfl, hk⟩
  · rintro ⟨t, k, hp, hk⟩
    subst hp
    exact ⟨_, toActiveTask_some t k hk⟩

theorem toActiveTask_bare {P : Type} (t : asynq.ActiveTask P) (h : t.Task = none) :
    toActiveTask (some t) = Except.error Panic.nilDereference := by
  simp [toActiveTask, h]

theorem toPendingTask_some {P : Type} (t : asynq.PendingTask P) (k : asynq.Task P)
    (h : t.Task = some k) :
    toPendingTask (some t)
      = Except.ok ⟨some ⟨t.ID, k.Type_, k.Payload, t.Queue⟩⟩ := by
  simp [toPendingTask, h]

theorem toPendingTask_error {P : Type} (p : Ptr (asynq.PendingTask P)) (e : Panic)
    (h : toPendingTask p = Except.error e) : e = Panic.nilDereference := by
  cases p with
  | none =>
    simp [toPendingTask] at h
    exact h.symm
  | some t =>
    cases hk : t.Task with
    | none =>
      simp [toPendingTask, hk] at h
      exact h.symm
    | some k => simp [toPendingTask, hk] at h

theorem toPendingTask_ok_iff {P : Type} (p : Ptr (asynq.PendingTask P)) :
    (∃ r, toPendingTask p = Except.ok r) ↔ ∃ t k, p = some t ∧ t.Task = some k := by
  constructor
  · rintro ⟨r, hr⟩
    cases p with
    | none => simp [toPendingTask] at hr
    | some t =>
      cases hk : t.Task with
      | none => simp [toPendingTask, hk] at hr
      | some k => exact ⟨t, k, rfl, hk⟩
  · rintro ⟨t, k, hp, hk⟩
    subst hp
    exact ⟨_, toPendingTask_some t k hk⟩

theorem toPendingTask_bare {P : Type} (t : asynq.PendingTask P) (h : t.Task = none) :
    toPendingTask (some t) = Except.error Panic.nilDereference := by
  simp [toPendingTask, h]

theorem toScheduledTask_some {T P : Type} (t : asynq.ScheduledTask T P) (k : asynq.Task P)
    (h : t.Task = some k) :
    toScheduledTask (some t)
      = Except.ok ⟨some ⟨t.ID, k.Type_, k.Payload, t.Queue⟩, t.NextProcessAt⟩ := by
  simp [toScheduledTask, h]

theorem toScheduledTask_error {T P : Type} (p : Ptr (asynq.ScheduledTask T P)) (e : Panic)
    (h : toScheduledTask p = Except.error e) : e = Panic.nilDereference := by
  cases p with
  | none =>
    simp [toScheduledTask] at h
    exact h.symm
  | some t =>
    cases hk : t.Task with
    | none =>
      simp [toScheduledTask, hk] at h
      exact h.symm
    | some k => simp [toScheduledTask, hk] at h

theorem toScheduledTask_ok_iff {T P : Type} (p : Ptr (asynq.ScheduledTask T P)) :
    (∃ r, toScheduledTask p = Except.ok r) ↔ ∃ t k, p = some t ∧ t.Task = some k := by
  constructor
  · rintro ⟨r, hr⟩
    cases p with
    | none => simp [toScheduledTask] at hr
    | some t =>
      cases hk : t.Task with
      | none => simp [toScheduledTask, hk] at hr
      | some k => exact ⟨t, k, rfl, hk⟩
  · rintro ⟨t, k, hp, hk⟩
    subst hp
    exact ⟨_, toScheduledTask_some t k hk⟩

theorem toScheduledTask_bare {T P : Type} (t : asynq.ScheduledTask T P) (h : t.Task = none) :
    toScheduledTask (some t) = Except.error Panic.nilDereference := by
  simp [toScheduledTask, h]

theorem toRetryTask_some {T P : Type} (t : asynq.RetryTask T P) (k : asynq.Task P)
    (h : t.Task = some k) :
    toRetryTask (some t)
      = Except.ok ⟨some ⟨t.ID, k.Type_, k.Payload, t.Queue⟩,
          t.NextProcessAt, t.MaxRetry, t.Retried, t.ErrorMsg⟩ := by
  simp [toRetryTask, h]

theorem toRetryTask_error {T P : Type} (p : Ptr (asynq.RetryTask T P)) (e : Panic)
    (h : toRetryTask p = Except.error e) : e = Panic.nilDereference := by
  cases p with
  | none =>
    simp [toRetryTask] at h
    exact h.symm
  | some t =>
    cases hk : t.Task with
    | none =>
      simp [toRetryTask, hk] at h
      exact h.symm
    | some k => simp [toRetryTask, hk] at h

theorem toRetryTask_ok_iff {T P : Type} (p : Ptr (asynq.RetryTask T P)) :
    (∃ r, toRetryTask p = Except.ok r) ↔ ∃ t k, p = some t ∧ t.Task = some k := by
  constructor
  · rintro ⟨r, hr⟩
    cases p with
    | none => simp [toRetryTask] at hr
    | some t =>
      cases hk : t.Task with
      | none => simp [toRetryTask, hk] at hr
      | some k => exact ⟨t, k, rfl, hk⟩
  · rintro ⟨t, k, hp, hk⟩
    subst hp
    exact ⟨_, toRetryTask_some t k hk⟩

theorem toRetryTask_bare {T P : Type} (t : asynq.RetryTask T P) (h : t.Task = none) :
    toRetryTask (some t) = Except.error Panic.nilDereference := by
  simp [toRetryTask, h]

theorem toDeadTask_some {T P : Type} (t : asynq.DeadTask T P) (k : asynq.Task P)
    (h : t.Task = some k) :
    toDeadTask (some t)
      = Except.ok ⟨some ⟨t.ID, k.Type_, k.Payload, t.Queue⟩,
          t.MaxRetry, t.Retried, t.ErrorMsg, t.LastFailedAt⟩ := by
  simp [toDeadTask, h]

theorem toDeadTask_error {T P : Type} (p : Ptr (asynq.DeadTask T P)) (e : Panic)
    (h : toDeadTask p = Except.error e) : e = Panic.nilDereference := by
  cases p with
  | none =>
    simp [toDeadTask] at h
    exact h.symm
  | some t =>
    cases hk : t.Task with
    | none =>
      simp [toDeadTask, hk] at h
      exact h.symm
    | some k => simp [toDeadTask, hk] at h

theorem toDeadTask_ok_iff {T P : Type} (p : Ptr (asynq.DeadTask T P)) :
    (∃ r, toDeadTask p = Except.ok r) ↔ ∃ t k, p = some t ∧ t.Task = some k := by
  constructor
  · rintro ⟨r, hr⟩
    cases p with
    | none => simp [toDeadTask] at hr
    | some t =>
      cases hk : t.Task with
      | none => simp [toDeadTask, hk] at hr
      | some k => exact ⟨t, k, rfl, hk⟩
  · rintro ⟨t, k, hp, hk⟩
    subst hp
    exact ⟨_, toDeadTask_some t k hk⟩

theorem toDeadTask_bare {T P : Type} (t : asynq.DeadTask T P) (h : t.Task = none) :
    toDeadTask (some t) = Except.error Panic.nilDereference := by
  simp [toDeadTask, h]

/-! ## The list loop on records -/

theorem rangeAssign_records {α β : Type} (f : Ptr α → Except Panic β) (s : Slice (Ptr α))
    (S : List α) (hs : s.elems = S.map some) (hall : ∀ t ∈ S, ∃ r, f (some t) = Except.ok r) :
    ∃ out, rangeAssign f s.elems 0 (make s.len) = Except.ok out
      ∧ out.len = s.len ∧ out.len = S.length
      ∧ ∀ (i : Nat) (t : α), S[i]? = some t →
          ∃ r, f (some t) = Except.ok r ∧ out.elems[i]? = some (some r) := by
  have hall2 : ∀ p ∈ s.elems, ∃ r, f p = Except.ok r := by
    intro p hp
    rw [hs] at hp
    obtain ⟨t, ht, rfl⟩ := List.mem_map.mp hp
    exact hall t ht
  obtain ⟨out, hout, hlen, helem⟩ := rangeAssign_elementwise f s hall2
  refine ⟨out, hout, hlen, ?_, ?_⟩
  · rw [hlen]
    show s.elems.length = S.length
    rw [hs, List.length_map]
  · intro i t ht
    exact helem i (some t) (by rw [hs]; simp [ht])

theorem some_of_ne_none {α : Type} (x : Ptr α) (h : x ≠ none) : ∃ k, x = some k := by
  cases x with
  | none => exact absurd rfl h
  | some k => exact ⟨k, rfl⟩

/-! ## Claims -/

/-- C1: for aggregate statistics with `Processed >= Failed >= 0` the snapshot
is produced, its `Succeeded` is `Processed - Failed`, and in the snapshot
`Succeeded + Failed` equals `Processed`, both as integers and under Go's
wrapping addition. -/
theorem toQueueStateSnapshot_succeeded {T : Type} (s : asynq.QueueStats T)
    (h0 : 0 ≤ s.Failed.val) (h1 : s.Failed.val ≤ s.Processed.val) :
    ∃ r, toQueueStateSnapshot (some s) = Except.ok r
      ∧ r.Succeeded.val = s.Processed.val - s.Failed.val
      ∧ r.Succeeded.val + r.Failed.val = r.Processed.val
      ∧ GoInt.add r.Succeeded r.Failed = r.Processed := by
  refine ⟨_, rfl, ?_, ?_, ?_⟩
  · exact GoInt.sub_val_of_le _ _ h0 h1
  · show (GoInt.sub s.Processed s.Failed).val + s.Failed.val = s.Processed.val
    rw [GoInt.sub_val_of_le _ _ h0 h1]
    omega
  · apply Subtype.ext
    show wrap64 ((GoInt.sub s.Processed s.Failed).val + s.Failed.val) = s.Processed.val
    rw [GoInt.sub_val_of_le _ _ h0 h1]
    have hp := s.Processed.property
    rw [show s.Processed.val - s.Failed.val + s.Failed.val = s.Processed.val by omega]
    exact wrap64_of_range _ hp.1 hp.2

/-- The `email` example: 100 processed and 7 failed give 93 succeeded. -/
theorem toQueueStateSnapshot_succeeded_witness :
    (0 ≤ emailStats.Failed.val ∧ emailStats.Failed.val ≤ emailStats.Processed.val)
      ∧ (emailStats.Processed.val = 100 ∧ emailStats.Failed.val = 7
          ∧ emailStats.Processed.val - emailStats.Failed.val = 93)
      ∧ ∃ r, toQueueStateSnapshot (some emailStats) = Except.ok r
          ∧ r.Succeeded.val = emailStats.Processed.val - emailStats.Failed.val
          ∧ r.Succeeded.val + r.Failed.val = r.Processed.val
          ∧ GoInt.add r.Succeeded r.Failed = r.Processed :=
  ⟨by decide, by decide, toQueueStateSnapshot_succeeded emailStats (by decide) (by decide)⟩

/-- C2: for daily statistics with `Processed >= Failed >= 0` the rollup is
produced, its `Succeeded` is `Processed - Failed`, and in the rollup
`Succeeded + Failed` equals `Processed`, both as integers and under Go's
wrapping addition. -/
theorem toDailyStats_succeeded {T : Type} (s : asynq.DailyStats T)
    (h0 : 0 ≤ s.Failed.val) (h1 : s.Failed.val ≤ s.Processed.val) :
    ∃ r, toDailyStats (some s) = Except.ok r
      ∧ r.Succeeded.val = s.Processed.val - s.Failed.val
      ∧ r.Succeeded.val + r.Failed.val = r.Processed.val
      ∧ GoInt.add r.Succeeded r.Failed = r.Processed := by
  have hsub := GoInt.sub_val_of_le s.Processed s.Failed h0 h1
  refine ⟨_, rfl, hsub, ?_, ?_⟩
  · show (GoInt.sub s.Processed s.Failed).val + s.Failed.val = s.Processed.val
    omega
  · apply Subtype.ext
    show wrap64 ((GoInt.sub s.Processed s.Failed).val + s.Failed.val) = s.Processed.val
    have hp := s.Processed.property
    rw [hsub, show s.Processed.val - s.Failed.val + s.Failed.val = s.Processed.val by omega]
    exact wrap64_of_range _ hp.1 hp.2

/-- A day with 40 processed and 4 failed tasks has 36 succeeded ones. -/
theorem toDailyStats_succeeded_witness :
    (0 ≤ emailDaily.Failed.val ∧ emailDaily.Failed.val ≤ emailDaily.Processed.val)
      ∧ emailDaily.Processed.val - emailDaily.Failed.val = 36
      ∧ ∃ r, toDailyStats (some emailDaily) = Except.ok r
          ∧ r.Succeeded.val = emailDaily.Processed.val - emailDaily.Failed.val
          ∧ r.Succeeded.val + r.Failed.val = r.Processed.val
          ∧ GoInt.add r.Succeeded r.Failed = r.Processed :=
  ⟨by decide, by decide, toDailyStats_succeeded emailDaily (by decide) (by decide)⟩


/-- C3: each of the five list projections, run on a slice whose elements are
the non-nil records `S`, each with its embedded task present, returns a slice
with exactly `len(S)` elements whose element at every index `i` is the
single-item projection of `S[i]`. -/
theorem list_projections_elementwise {T P : Type} :
    (∀ (s : Slice (Ptr (asynq.ActiveTask P))) (S : List (asynq.ActiveTask P)),
      s.elems = S.map some → (∀ t ∈ S, t.Task ≠ none) →
        ∃ out, toActiveTasks s = Except.ok out ∧ out.len = s.len ∧ out.len = S.length
          ∧ ∀ (i : Nat) (t : asynq.ActiveTask P), S[i]? = some t →
              ∃ r, toActiveTask (some t) = Except.ok r ∧ out.elems[i]? = some (some r))
    ∧ (∀ (s : Slice (Ptr (asynq.PendingTask P))) (S : List (asynq.PendingTask P)),
      s.elems = S.map some → (∀ t ∈ S, t.Task ≠ none) →
        ∃ out, toPendingTasks s = Except.ok out ∧ out.len = s.len ∧ out.len = S.length
          ∧ ∀ (i : Nat) (t : asynq.PendingTask P), S[i]? = some t →
              ∃ r, toPendingTask (some t) = Except.ok r ∧ out.elems[i]? = some (some r))
    ∧ (∀ (s : Slice (Ptr (asynq.ScheduledTask T P))) (S : List (asynq.ScheduledTask T P)),
      s.elems = S.map some → (∀ t ∈ S, t.Task ≠ none) →
        ∃ out, toScheduledTasks s = Except.ok out ∧ out.len = s.len ∧ out.len = S.length
          ∧ ∀ (i : Nat) (t : asynq.ScheduledTask T P), S[i]? = some t →
              ∃ r, toScheduledTask (some t) = Except.ok r ∧ out.elems[i]? = some (some r))
    ∧ (∀ (s : Slice (Ptr (asynq.RetryTask T P))) (S : List (asynq.RetryTask T P)),
      s.elems = S.map some → (∀ t ∈ S, t.Task ≠ none) →
        ∃ out, toRetryTasks s = Except.ok out ∧ out.len = s.len ∧ out.len = S.length
          ∧ ∀ (i : Nat) (t : asynq.RetryTask T P), S[i]? = some t →
              ∃ r, toRetryTask (some t) = Except.ok r ∧ out.elems[i]? = some (some r))
    ∧ (∀ (s : Slice (Ptr (asynq.DeadTask T P))) (S : List (asynq.DeadTask T P)),
      s.elems = S.map some → (∀ t ∈ S, t.Task ≠ none) →
        ∃ out, toDeadTasks s = Except.ok out ∧ out.len = s.len ∧ out.len = S.length
          ∧ ∀ (i : Nat) (t : asynq.DeadTask T P), S[i]? = some t →
              ∃ r, toDeadTask (some t) = Except.ok r ∧ out.elems[i]? = some (some r)) := by
  refine ⟨?_, ?_, ?_, ?_, ?_⟩
  · intro s S hs hall
    refine rangeAssign_records toActiveTask s S hs ?_
    intro t ht
    obtain ⟨k, hk⟩ := some_of_ne_none t.Task (hall t ht)
    exact ⟨_, toActiveTask_some t k hk⟩
  · intro s S hs hall
    refine rangeAssign_records toPendingTask s S hs ?_
    intro t ht
    obtain ⟨k, hk⟩ := some_of_ne_none t.Task (hall t ht)
    exact ⟨_, toPendingTask_some t k hk⟩
  · intro s S hs hall
    refine rangeAssign_records toScheduledTask s S hs ?_
    intro t ht
    obtain ⟨k, hk⟩ := some_of_ne_none t.Task (hall t ht)
    exact ⟨_, toScheduledTask_some t k hk⟩
  · intro s S hs hall
    refine rangeAssign_records toRetryTask s S hs ?_
    intro t ht
    obtain ⟨k, hk⟩ := some_of_ne_none t.Task (hall t ht)
    exact ⟨_, toRetryTask_some t k hk⟩
  · intro s S hs hall
    refine rangeAssign_records toDeadTask s S hs ?_
    intro t ht
    obtain ⟨k, hk⟩ := some_of_ne_none t.Task (hall t ht)
    exact ⟨_, toDeadTask_some t k hk⟩

/-- Two retry tasks are projected to two retry tasks, in the same order. -/
theorem list_projections_elementwise_witness :
    ((Slice.mk [some emailRetry, some emailRetry2]).elems = [emailRetry, emailRetry2].map some
      ∧ ∀ t ∈ [emailRetry, emailRetry2], t.Task ≠ none)
      ∧ ∃ out, toRetryTasks (Slice.mk [some emailRetry, some emailRetry2]) = Except.ok out
          ∧ out.len = (Slice.mk [some emailRetry, some emailRetry2]).len
          ∧ out.len = [emailRetry, emailRetry2].length
          ∧ ∀ (i : Nat) (t : asynq.RetryTask Nat String),
              [emailRetry, emailRetry2][i]? = some t →
                ∃ r, toRetryTask (some t) = Except.ok r ∧ out.elems[i]? = some (some r) :=
  ⟨⟨rfl, by intro t ht; simp at ht; rcases ht with rfl | rfl <;> simp [emailRetry, emailRetry2]⟩,
   (@list_projections_elementwise Nat String).2.2.2.1
    (Slice.mk [some emailRetry, some emailRetry2]) [emailRetry, emailRetry2] rfl
    (by intro t ht; simp at ht; rcases ht with rfl | rfl <;> simp [emailRetry, emailRetry2])⟩

/-- C4: for each of the five task variants the projection of a record `t`,
whose promoted fields `Type` and `Payload` are those of its embedded task
`k`, carries an identity block whose `ID`, `Type`, `Queue` and `Payload` are
those of `t`. -/
theorem task_projections_identity {T P : Type} :
    (∀ (t : asynq.ActiveTask P) (k : asynq.Task P), t.Task = some k →
      ∃ r b, toActiveTask (some t) = Except.ok r ∧ r.BaseTask = some b
        ∧ b.ID = t.ID ∧ b.Type_ = k.Type_ ∧ b.Queue = t.Queue ∧ b.Payload = k.Payload)
    ∧ (∀ (t : asynq.PendingTask P) (k : asynq.Task P), t.Task = some k →
      ∃ r b, toPendingTask (some t) = Except.ok r ∧ r.BaseTask = some b
        ∧ b.ID = t.ID ∧ b.Type_ = k.Type_ ∧ b.Queue = t.Queue ∧ b.Payload = k.Payload)
    ∧ (∀ (t : asynq.ScheduledTask T P) (k : asynq.Task P), t.Task = some k →
      ∃ r b, toScheduledTask (some t) = Except.ok r ∧ r.BaseTask = some b
        ∧ b.ID = t.ID ∧ b.Type_ = k.Type_ ∧ b.Queue = t.Queue ∧ b.Payload = k.Payload)
    ∧ (∀ (t : asynq.RetryTask T P) (k : asynq.Task P), t.Task = some k →
      ∃ r b, toRetryTask (some t) = Except.ok r ∧ r.BaseTask = some b
        ∧ b.ID = t.ID ∧ b.Type_ = k.Type_ ∧ b.Queue = t.Queue ∧ b.Payload = k.Payload)
    ∧ (∀ (t : asynq.DeadTask T P) (k : asynq.Task P), t.Task = some k →
      ∃ r b, toDeadTask (some t) = Except.ok r ∧ r.BaseTask = some b
        ∧ b.ID = t.ID ∧ b.Type_ = k.Type_ ∧ b.Queue = t.Queue ∧ b.Payload = k.Payload) :=
  ⟨fun t k h => ⟨_, _, toActiveTask_some t k h, rfl, rfl, rfl, rfl, rfl⟩,
   fun t k h => ⟨_, _, toPendingTask_some t k h, rfl, rfl, rfl, rfl, rfl⟩,
   fun t k h => ⟨_, _, toScheduledTask_some t k h, rfl, rfl, rfl, rfl, rfl⟩,
   fun t k h => ⟨_, _, toRetryTask_some t k h, rfl, rfl, rfl, rfl, rfl⟩,
   fun t k h => ⟨_, _, toDeadTask_some t k h, rfl, rfl, rfl, rfl, rfl⟩⟩

/-- The active task `jkl` and the dead task `d1` of the `email` queue keep
their identity. -/
theorem task_projections_identity_witness :
    (emailActive.Task = some aliceTask
      ∧ ∃ r b, toActiveTask (some emailActive) = Except.ok r ∧ r.BaseTask = some b
          ∧ b.ID = emailActive.ID ∧ b.Type_ = aliceTask.Type_ ∧ b.Queue = emailActive.Queue
          ∧ b.Payload = aliceTask.Payload)
    ∧ (emailDead.Task = some aliceTask
      ∧ ∃ r b, toDeadTask (some emailDead) = Except.ok r ∧ r.BaseTask = some b
          ∧ b.ID = emailDead.ID ∧ b.Type_ = aliceTask.Type_ ∧ b.Queue = emailDead.Queue
          ∧ b.Payload = aliceTask.Payload) :=
  ⟨⟨rfl, (@task_projections_identity Nat String).1 emailActive aliceTask rfl⟩,
   ⟨rfl, (@task_projections_identity Nat String).2.2.2.2 emailDead aliceTask rfl⟩⟩

/-- C5: for every aggregate statistics record, whatever its counts, the
snapshot has `Queue`, `Size`, `Active`, `Pending`, `Scheduled`, `Retry`,
`Dead`, `Processed`, `Failed`, `Paused` and `Timestamp` equal to the fields of
the same name of the source; the remaining field, `Succeeded`, is the
machine difference of `Processed` and `Failed`. -/
theorem toQueueStateSnapshot_copies {T : Type} (s : asynq.QueueStats T) :
    ∃ r, toQueueStateSnapshot (some s) = Except.ok r
      ∧ r.Queue = s.Queue ∧ r.Size = s.Size ∧ r.Active = s.Active ∧ r.Pending = s.Pending
      ∧ r.Scheduled = s.Scheduled ∧ r.Retry = s.Retry ∧ r.Dead = s.Dead
      ∧ r.Processed = s.Processed ∧ r.Failed = s.Failed ∧ r.Paused = s.Paused
      ∧ r.Timestamp = s.Timestamp
      ∧ r.Succeeded = GoInt.sub s.Processed s.Failed :=
  ⟨_, rfl, rfl, rfl, rfl, rfl, rfl, rfl, rfl, rfl, rfl, rfl, rfl, rfl⟩

/-- C6: for every daily statistics record the rollup has `Queue`,
`Processed`, `Failed` and `Date` equal to the fields of the same name of the
source. -/
theorem toDailyStats_copies {T : Type} (s : asynq.DailyStats T) :
    ∃ r, toDailyStats (some s) = Except.ok r
      ∧ r.Queue = s.Queue ∧ r.Processed = s.Processed ∧ r.Failed = s.Failed
      ∧ r.Date = s.Date :=
  ⟨_, rfl, rfl, rfl, rfl, rfl⟩


/-- C7: for every retry task record `t`, whose promoted fields `Type` and
`Payload` are those of its embedded task `k`, the projection carries
`NextProcessAt`, `MaxRetry`, `Retried` and `ErrorMsg` of `t` together with
the identity fields of `t`, all unaltered. -/
theorem toRetryTask_copies {T P : Type} (t : asynq.RetryTask T P) (k : asynq.Task P)
    (h : t.Task = some k) :
    ∃ r b, toRetryTask (some t) = Except.ok r
      ∧ r.NextProcessAt = t.NextProcessAt ∧ r.MaxRetry = t.MaxRetry
      ∧ r.Retried = t.Retried ∧ r.ErrorMsg = t.ErrorMsg
      ∧ r.BaseTask = some b
      ∧ b.ID = t.ID ∧ b.Type_ = k.Type_ ∧ b.Payload = k.Payload ∧ b.Queue = t.Queue :=
  ⟨_, _, toRetryTask_some t k h, rfl, rfl, rfl, rfl, rfl, rfl, rfl, rfl, rfl⟩

/-- The retry task `abc` of the `email` queue is projected with its own field
values. -/
theorem toRetryTask_copies_witness :
    emailRetry.Task = some aliceTask
      ∧ ∃ r b, toRetryTask (some emailRetry) = Except.ok r
          ∧ r.NextProcessAt = emailRetry.NextProcessAt ∧ r.MaxRetry = emailRetry.MaxRetry
          ∧ r.Retried = emailRetry.Retried ∧ r.ErrorMsg = emailRetry.ErrorMsg
          ∧ r.BaseTask = some b
          ∧ b.ID = emailRetry.ID ∧ b.Type_ = aliceTask.Type_
          ∧ b.Payload = aliceTask.Payload ∧ b.Queue = emailRetry.Queue :=
  ⟨rfl, toRetryTask_copies emailRetry aliceTask rfl⟩

/-- The retry task `abc` of the `email` queue keeps its field values. -/
theorem toRetryTask_email :
    ∃ r b, toRetryTask (some emailRetry) = Except.ok r
      ∧ r.NextProcessAt = 1600000060 ∧ r.MaxRetry.val = 5 ∧ r.Retried.val = 2
      ∧ r.ErrorMsg = "smtp timeout"
      ∧ r.BaseTask = some b
      ∧ b.ID = "abc" ∧ b.Type_ = "send_email" ∧ b.Queue = "email" :=
  ⟨_, _, rfl, rfl, by decide, by decide, rfl, rfl, rfl, rfl, rfl⟩

/-- C8: the projection of a scheduled task record keeps its `NextProcessAt`,
and the projection of a dead task record keeps its `MaxRetry`, `Retried`,
`ErrorMsg` and `LastFailedAt`; the records are those with their embedded task
present. -/
theorem scheduled_dead_copies {T P : Type} :
    (∀ (t : asynq.ScheduledTask T P) (k : asynq.Task P), t.Task = some k →
      ∃ r, toScheduledTask (some t) = Except.ok r
        ∧ r.NextProcessAt = t.NextProcessAt)
    ∧ (∀ (t : asynq.DeadTask T P) (k : asynq.Task P), t.Task = some k →
      ∃ r, toDeadTask (some t) = Except.ok r
        ∧ r.MaxRetry = t.MaxRetry ∧ r.Retried = t.Retried ∧ r.ErrorMsg = t.ErrorMsg
        ∧ r.LastFailedAt = t.LastFailedAt) :=
  ⟨fun t k h => ⟨_, toScheduledTask_some t k h, rfl⟩,
   fun t k h => ⟨_, toDeadTask_some t k h, rfl, rfl, rfl, rfl⟩⟩

/-- The scheduled task `ghi` keeps its next processing time and the dead task
`d1` keeps its retry counts, error message and time of last failure. -/
theorem scheduled_dead_copies_witness :
    (emailScheduled.Task = some bobTask
      ∧ ∃ r, toScheduledTask (some emailScheduled) = Except.ok r
          ∧ r.NextProcessAt = emailScheduled.NextProcessAt)
    ∧ (emailDead.Task = some aliceTask
      ∧ ∃ r, toDeadTask (some emailDead) = Except.ok r
          ∧ r.MaxRetry = emailDead.MaxRetry ∧ r.Retried = emailDead.Retried
          ∧ r.ErrorMsg = emailDead.ErrorMsg ∧ r.LastFailedAt = emailDead.LastFailedAt) :=
  ⟨⟨rfl, (@scheduled_dead_copies Nat String).1 emailScheduled bobTask rfl⟩,
   ⟨rfl, (@scheduled_dead_copies Nat String).2 emailDead aliceTask rfl⟩⟩

/-- C9: each of the five list projections maps an input of length zero, the
nil slice included, to a slice that is not nil and has no elements. -/
theorem list_projections_empty {T P : Type} :
    (∀ s : Slice (Ptr (asynq.ActiveTask P)), s.len = 0 →
      ∃ out, toActiveTasks s = Except.ok out ∧ out.isNil = false ∧ out.len = 0)
    ∧ (∀ s : Slice (Ptr (asynq.PendingTask P)), s.len = 0 →
      ∃ out, toPendingTasks s = Except.ok out ∧ out.isNil = false ∧ out.len = 0)
    ∧ (∀ s : Slice (Ptr (asynq.ScheduledTask T P)), s.len = 0 →
      ∃ out, toScheduledTasks s = Except.ok out ∧ out.isNil = false ∧ out.len = 0)
    ∧ (∀ s : Slice (Ptr (asynq.RetryTask T P)), s.len = 0 →
      ∃ out, toRetryTasks s = Except.ok out ∧ out.isNil = false ∧ out.len = 0)
    ∧ (∀ s : Slice (Ptr (asynq.DeadTask T P)), s.len = 0 →
      ∃ out, toDeadTasks s = Except.ok out ∧ out.isNil = false ∧ out.len = 0) :=
  ⟨fun s hs => ⟨_, rangeAssign_empty toActiveTask s hs, rfl, rfl⟩,
   fun s hs => ⟨_, rangeAssign_empty toPendingTask s hs, rfl, rfl⟩,
   fun s hs => ⟨_, rangeAssign_empty toScheduledTask s hs, rfl, rfl⟩,
   fun s hs => ⟨_, rangeAssign_empty toRetryTask s hs, rfl, rfl⟩,
   fun s hs => ⟨_, rangeAssign_empty toDeadTask s hs, rfl, rfl⟩⟩

/-- The nil slice of active tasks and the empty non-nil slice of dead tasks
are both projected to an empty slice that is not nil. -/
theorem list_projections_empty_witness :
    ((Slice.nil : Slice (Ptr (asynq.ActiveTask String))).len = 0
      ∧ ∃ out, toActiveTasks (Slice.nil : Slice (Ptr (asynq.ActiveTask String)))
            = Except.ok out ∧ out.isNil = false ∧ out.len = 0)
    ∧ ((Slice.mk [] : Slice (Ptr (asynq.DeadTask Nat String))).len = 0
      ∧ ∃ out, toDeadTasks (Slice.mk [] : Slice (Ptr (asynq.DeadTask Nat String)))
            = Except.ok out ∧ out.isNil = false ∧ out.len = 0) :=
  ⟨⟨rfl, (@list_projections_empty Nat String).1 Slice.nil rfl⟩,
   ⟨rfl, (@list_projections_empty Nat String).2.2.2.2 (Slice.mk []) rfl⟩⟩

/-- C10, as stated, fails: with `Processed` the least `int` and `Failed = 1`
the source has `Failed > Processed`, the subtraction wraps around, and
`Succeeded` is the greatest `int`, which is not negative. -/
theorem toQueueStateSnapshot_succeeded_wraps :
    overflowStats.Failed.val > overflowStats.Processed.val
      ∧ ∃ r, toQueueStateSnapshot (some overflowStats) = Except.ok r
          ∧ r.Succeeded.val = 9223372036854775807
          ∧ ¬ r.Succeeded.val < 0 :=
  ⟨by decide, _, rfl, by decide, by decide⟩

/-- C10, amended: for aggregate statistics with `Failed > Processed` whose
difference `Processed - Failed` is representable in `int` (it is at least
`-2^63`), `Succeeded` is that difference, a negative number: the value is
neither validated nor clamped. -/
theorem toQueueStateSnapshot_succeeded_negative {T : Type} (s : asynq.QueueStats T)
    (h : s.Failed.val > s.Processed.val) (hrep : intMin ≤ s.Processed.val - s.Failed.val) :
    ∃ r, toQueueStateSnapshot (some s) = Except.ok r
      ∧ r.Succeeded.val = s.Processed.val - s.Failed.val
      ∧ r.Succeeded.val < 0 := by
  have hp := s.Processed.property
  have hf := s.Failed.property
  have hsub : (GoInt.sub s.Processed s.Failed).val = s.Processed.val - s.Failed.val := by
    show wrap64 (s.Processed.val - s.Failed.val) = s.Processed.val - s.Failed.val
    apply wrap64_of_range _ hrep
    unfold intMin at hrep
    unfold intMax
    omega
  refine ⟨_, rfl, hsub, ?_⟩
  show (GoInt.sub s.Processed s.Failed).val < 0
  omega

/-- Three processed and ten failed tasks give minus seven succeeded ones. -/
theorem toQueueStateSnapshot_succeeded_negative_witness :
    (malformedStats.Failed.val > malformedStats.Processed.val
      ∧ intMin ≤ malformedStats.Processed.val - malformedStats.Failed.val)
      ∧ malformedStats.Processed.val - malformedStats.Failed.val = -7
      ∧ ∃ r, toQueueStateSnapshot (some malformedStats) = Except.ok r
          ∧ r.Succeeded.val = malformedStats.Processed.val - malformedStats.Failed.val
          ∧ r.Succeeded.val < 0 :=
  ⟨⟨by decide, by decide⟩, by decide,
    toQueueStateSnapshot_succeeded_negative malformedStats (by decide) (by decide)⟩


/-! ## Claims on invariants -/

/-- C11: for aggregate statistics and for daily statistics with
`0 <= Failed <= Processed` the projection is produced and its `Succeeded`
satisfies `0 <= Succeeded <= Processed`. -/
theorem succeeded_bounds {T : Type} :
    (∀ s : asynq.QueueStats T, 0 ≤ s.Failed.val → s.Failed.val ≤ s.Processed.val →
      ∃ r, toQueueStateSnapshot (some s) = Except.ok r
        ∧ 0 ≤ r.Succeeded.val ∧ r.Succeeded.val ≤ r.Processed.val)
    ∧ (∀ s : asynq.DailyStats T, 0 ≤ s.Failed.val → s.Failed.val ≤ s.Processed.val →
      ∃ r, toDailyStats (some s) = Except.ok r
        ∧ 0 ≤ r.Succeeded.val ∧ r.Succeeded.val ≤ r.Processed.val) := by
  constructor
  · intro s h0 h1
    have hsub := GoInt.sub_val_of_le s.Processed s.Failed h0 h1
    refine ⟨_, rfl, ?_, ?_⟩
    · show 0 ≤ (GoInt.sub s.Processed s.Failed).val
      omega
    · show (GoInt.sub s.Processed s.Failed).val ≤ s.Processed.val
      omega
  · intro s h0 h1
    have hsub := GoInt.sub_val_of_le s.Processed s.Failed h0 h1
    refine ⟨_, rfl, ?_, ?_⟩
    · show 0 ≤ (GoInt.sub s.Processed s.Failed).val
      omega
    · show (GoInt.sub s.Processed s.Failed).val ≤ s.Processed.val
      omega

/-- The `email` statistics, aggregate and daily, have a `Succeeded` count
between zero and `Processed`. -/
theorem succeeded_bounds_witness :
    ((0 ≤ emailStats.Failed.val ∧ emailStats.Failed.val ≤ emailStats.Processed.val)
      ∧ ∃ r, toQueueStateSnapshot (some emailStats) = Except.ok r
          ∧ 0 ≤ r.Succeeded.val ∧ r.Succeeded.val ≤ r.Processed.val)
    ∧ ((0 ≤ emailDaily.Failed.val ∧ emailDaily.Failed.val ≤ emailDaily.Processed.val)
      ∧ ∃ r, toDailyStats (some emailDaily) = Except.ok r
          ∧ 0 ≤ r.Succeeded.val ∧ r.Succeeded.val ≤ r.Processed.val) :=
  ⟨⟨by decide, (@succeeded_bounds Nat).1 emailStats (by decide) (by decide)⟩,
   ⟨by decide, (@succeeded_bounds Nat).2 emailDaily (by decide) (by decide)⟩⟩

/-- C12: for aggregate statistics whose `Size` is the sum of the five
per-state counts, all of them non-negative, the snapshot is produced, its
`Size` is the sum of its own five per-state counts, and each of these counts
is non-negative. -/
theorem toQueueStateSnapshot_size {T : Type} (s : asynq.QueueStats T)
    (hsize : s.Size.val
      = s.Active.val + s.Pending.val + s.Scheduled.val + s.Retry.val + s.Dead.val)
    (hA : 0 ≤ s.Active.val) (hP : 0 ≤ s.Pending.val) (hS : 0 ≤ s.Scheduled.val)
    (hR : 0 ≤ s.Retry.val) (hD : 0 ≤ s.Dead.val) :
    ∃ r, toQueueStateSnapshot (some s) = Except.ok r
      ∧ r.Size.val
          = r.Active.val + r.Pending.val + r.Scheduled.val + r.Retry.val + r.Dead.val
      ∧ 0 ≤ r.Active.val ∧ 0 ≤ r.Pending.val ∧ 0 ≤ r.Scheduled.val
      ∧ 0 ≤ r.Retry.val ∧ 0 ≤ r.Dead.val :=
  ⟨_, rfl, hsize, hA, hP, hS, hR, hD⟩

/-- The `email` queue has size 10, the sum of 2 active, 5 pending, 1
scheduled, 1 retry and 1 dead task, and so has its snapshot. -/
theorem toQueueStateSnapshot_size_witness :
    (emailStats.Size.val = 10
      ∧ emailStats.Size.val = emailStats.Active.val + emailStats.Pending.val
          + emailStats.Scheduled.val + emailStats.Retry.val + emailStats.Dead.val)
    ∧ ∃ r, toQueueStateSnapshot (some emailStats) = Except.ok r
        ∧ r.Size.val
            = r.Active.val + r.Pending.val + r.Scheduled.val + r.Retry.val + r.Dead.val
        ∧ 0 ≤ r.Active.val ∧ 0 ≤ r.Pending.val ∧ 0 ≤ r.Scheduled.val
        ∧ 0 ≤ r.Retry.val ∧ 0 ≤ r.Dead.val :=
  ⟨⟨by decide, by decide⟩,
    toQueueStateSnapshot_size emailStats (by decide) (by decide) (by decide) (by decide)
      (by decide) (by decide)⟩

/-- C15: for every aggregate statistics record and every daily statistics
record, with no condition on `Processed` and `Failed`, the projection is
produced and in it `Succeeded + Failed == Processed` holds under Go's
addition, which wraps modulo `2^64`. -/
theorem succeeded_plus_failed_wrapping {T : Type} :
    (∀ s : asynq.QueueStats T, ∃ r, toQueueStateSnapshot (some s) = Except.ok r
      ∧ GoInt.add r.Succeeded r.Failed = r.Processed)
    ∧ (∀ s : asynq.DailyStats T, ∃ r, toDailyStats (some s) = Except.ok r
      ∧ GoInt.add r.Succeeded r.Failed = r.Processed) :=
  ⟨fun s => ⟨_, rfl, GoInt.add_sub_cancel s.Processed s.Failed⟩,
   fun s => ⟨_, rfl, GoInt.add_sub_cancel s.Processed s.Failed⟩⟩

/-- On the overflowing statistics the wrapped sum is `Processed` again, while
the sum as integers is not. -/
theorem succeeded_plus_failed_overflow :
    ∃ r, toQueueStateSnapshot (some overflowStats) = Except.ok r
      ∧ GoInt.add r.Succeeded r.Failed = r.Processed
      ∧ r.Succeeded.val + r.Failed.val ≠ r.Processed.val :=
  ⟨_, rfl, by decide, by decide⟩


/-! ## Claims on totality, on nil elements and on the payload -/

/-- C13, as stated, fails: the active task record `&asynq.ActiveTask{ID: "a9"}`
is not nil, yet its projection panics, because its embedded task is nil; and
the slice of the two non-nil scheduled task records `ghi` and
`&asynq.ScheduledTask{ID: "s9"}` is not projected either. -/
theorem projections_total_fails :
    ((some bareActive : Ptr (asynq.ActiveTask String)) ≠ none
      ∧ toActiveTask (some bareActive) = Except.error Panic.nilDereference
      ∧ ¬ ∃ r, toActiveTask (some bareActive) = Except.ok r)
    ∧ ((∀ p ∈ (Slice.mk [some emailScheduled, some bareScheduled]).elems, p ≠ none)
      ∧ toScheduledTasks (Slice.mk [some emailScheduled, some bareScheduled])
          = Except.error Panic.nilDereference
      ∧ ¬ ∃ out, toScheduledTasks (Slice.mk [some emailScheduled, some bareScheduled])
          = Except.ok out) := by
  refine ⟨⟨by simp, rfl, ?_⟩, ⟨?_, rfl, ?_⟩⟩
  · rintro ⟨r, hr⟩
    cases hr
  · intro p hp
    simp [Slice.elems] at hp
    rcases hp with rfl | rfl <;> simp
  · rintro ⟨out, hout⟩
    cases hout

/-- C13, amended: the two statistics projections return a value on every
non-nil record; the five single-task projections return a value on every
non-nil record whose embedded task is not nil; the five list projections
return a value on every slice each of whose elements is a non-nil record
whose embedded task is not nil. No panic is reached. -/
theorem projections_total {T P : Type} :
    (∀ s : asynq.QueueStats T, ∃ r, toQueueStateSnapshot (some s) = Except.ok r)
    ∧ (∀ s : asynq.DailyStats T, ∃ r, toDailyStats (some s) = Except.ok r)
    ∧ (∀ t : asynq.ActiveTask P, t.Task ≠ none →
      ∃ r, toActiveTask (some t) = Except.ok r)
    ∧ (∀ t : asynq.PendingTask P, t.Task ≠ none →
      ∃ r, toPendingTask (some t) = Except.ok r)
    ∧ (∀ t : asynq.ScheduledTask T P, t.Task ≠ none →
      ∃ r, toScheduledTask (some t) = Except.ok r)
    ∧ (∀ t : asynq.RetryTask T P, t.Task ≠ none →
      ∃ r, toRetryTask (some t) = Except.ok r)
    ∧ (∀ t : asynq.DeadTask T P, t.Task ≠ none →
      ∃ r, toDeadTask (some t) = Except.ok r)
    ∧ (∀ s : Slice (Ptr (asynq.ActiveTask P)),
      (∀ p ∈ s.elems, ∃ t, p = some t ∧ t.Task ≠ none) →
        ∃ out, toActiveTasks s = Except.ok out)
    ∧ (∀ s : Slice (Ptr (asynq.PendingTask P)),
      (∀ p ∈ s.elems, ∃ t, p = some t ∧ t.Task ≠ none) →
        ∃ out, toPendingTasks s = Except.ok out)
    ∧ (∀ s : Slice (Ptr (asynq.ScheduledTask T P)),
      (∀ p ∈ s.elems, ∃ t, p = some t ∧ t.Task ≠ none) →
        ∃ out, toScheduledTasks s = Except.ok out)
    ∧ (∀ s : Slice (Ptr (asynq.RetryTask T P)),
      (∀ p ∈ s.elems, ∃ t, p = some t ∧ t.Task ≠ none) →
        ∃ out, toRetryTasks s = Except.ok out)
    ∧ (∀ s : Slice (Ptr (asynq.DeadTask T P)),
      (∀ p ∈ s.elems, ∃ t, p = some t ∧ t.Task ≠ none) →
        ∃ out, toDeadTasks s = Except.ok out) := by
  refine ⟨fun _ => ⟨_, rfl⟩, fun _ => ⟨_, rfl⟩, ?_, ?_, ?_, ?_, ?_, ?_, ?_, ?_, ?_, ?_⟩
  · intro t ht
    obtain ⟨k, hk⟩ := some_of_ne_none t.Task ht
    exact ⟨_, toActiveTask_some t k hk⟩
  · intro t ht
    obtain ⟨k, hk⟩ := some_of_ne_none t.Task ht
    exact ⟨_, toPendingTask_some t k hk⟩
  · intro t ht
    obtain ⟨k, hk⟩ := some_of_ne_none t.Task ht
    exact ⟨_, toScheduledTask_some t k hk⟩
  · intro t ht
    obtain ⟨k, hk⟩ := some_of_ne_none t.Task ht
    exact ⟨_, toRetryTask_some t k hk⟩
  · intro t ht
    obtain ⟨k, hk⟩ := some_of_ne_none t.Task ht
    exact ⟨_, toDeadTask_some t k hk⟩
  · intro s hall
    refine (rangeAssign_make_ok_iff toActiveTask toActiveTask_error s).mpr ?_
    intro p hp
    obtain ⟨t, hpt, ht⟩ := hall p hp
    obtain ⟨k, hk⟩ := some_of_ne_none t.Task ht
    exact (toActiveTask_ok_iff p).mpr ⟨t, k, hpt, hk⟩
  · intro s hall
    refine (rangeAssign_make_ok_iff toPendingTask toPendingTask_error s).mpr ?_
    intro p hp
    obtain ⟨t, hpt, ht⟩ := hall p hp
    obtain ⟨k, hk⟩ := some_of_ne_none t.Task ht
    exact (toPendingTask_ok_iff p).mpr ⟨t, k, hpt, hk⟩
  · intro s hall
    refine (rangeAssign_make_ok_iff toScheduledTask toScheduledTask_error s).mpr ?_
    intro p hp
    obtain ⟨t, hpt, ht⟩ := hall p hp
    obtain ⟨k, hk⟩ := some_of_ne_none t.Task ht
    exact (toScheduledTask_ok_iff p).mpr ⟨t, k, hpt, hk⟩
  · intro s hall
    refine (rangeAssign_make_ok_iff toRetryTask toRetryTask_error s).mpr ?_
    intro p hp
    obtain ⟨t, hpt, ht⟩ := hall p hp
    obtain ⟨k, hk⟩ := some_of_ne_none t.Task ht
    exact (toRetryTask_ok_iff p).mpr ⟨t, k, hpt, hk⟩
  · intro s hall
    refine (rangeAssign_make_ok_iff toDeadTask toDeadTask_error s).mpr ?_
    intro p hp
    obtain ⟨t, hpt, ht⟩ := hall p hp
    obtain ⟨k, hk⟩ := some_of_ne_none t.Task ht
    exact (toDeadTask_ok_iff p).mpr ⟨t, k, hpt, hk⟩

/-- The dead task `d1`, with its embedded task present, is projected to a
value, and so is a slice of two scheduled tasks with their embedded tasks
present. -/
theorem projections_total_witness :
    (emailDead.Task ≠ none ∧ ∃ r, toDeadTask (some emailDead) = Except.ok r)
    ∧ ((∀ p ∈ (Slice.mk [some emailScheduled, some emailScheduled]).elems,
          ∃ t, p = some t ∧ t.Task ≠ none)
      ∧ ∃ out, toScheduledTasks (Slice.mk [some emailScheduled, some emailScheduled])
          = Except.ok out) :=
  ⟨⟨by simp [emailDead],
    (@projections_total Nat String).2.2.2.2.2.2.1 emailDead (by simp [emailDead])⟩,
   ⟨by intro p hp; simp [Slice.elems] at hp; exact ⟨emailScheduled, hp, by simp [emailScheduled]⟩,
    (@projections_total Nat String).2.2.2.2.2.2.2.2.2.1
      (Slice.mk [some emailScheduled, some emailScheduled])
      (by intro p hp; simp [Slice.elems] at hp
          exact ⟨emailScheduled, hp, by simp [emailScheduled]⟩)⟩⟩

/-- C14, as stated, fails: the payload of the projected task is the same map
object as the payload of the source record. Before the mutation the key `to`
read through the projected task is `alice`; after `to` is set to `mallory`
through the payload of the source record, the same read through the projected
task gives `mallory`. -/
theorem payload_mutation_observable :
    mapActive.Task = some mapTask
      ∧ ∃ r b, toActiveTask (some mapActive) = Except.ok r ∧ r.BaseTask = some b
          ∧ aliceHeap.mapaccess b.Payload.data "to" = some "alice"
          ∧ (aliceHeap.mapassign mapTask.Payload.data "to" "mallory").mapaccess
              b.Payload.data "to" = some "mallory"
          ∧ (aliceHeap.mapassign mapTask.Payload.data "to" "mallory").mapaccess
              b.Payload.data "to" ≠ aliceHeap.mapaccess b.Payload.data "to" :=
  ⟨rfl, _, _, rfl, rfl, by decide, by decide, by decide⟩

/-- C14, amended: each of the five single-task projections copies the payload
struct of the source record by value, a shallow copy: the payload of the
projected task refers to the same map object as the payload of the source
record, so that a value stored in that map through the source record after
the projection is the value read through the projected task. -/
theorem payload_shared {T : Type} :
    (∀ (t : asynq.ActiveTask asynq.Payload) (k : asynq.Task asynq.Payload),
      t.Task = some k →
        ∃ r b, toActiveTask (some t) = Except.ok r ∧ r.BaseTask = some b
          ∧ b.Payload.data = k.Payload.data
          ∧ ∀ (h : Heap) (key val : String),
              (h.mapassign k.Payload.data key val).mapaccess b.Payload.data key
                = some val)
    ∧ (∀ (t : asynq.PendingTask asynq.Payload) (k : asynq.Task asynq.Payload),
      t.Task = some k →
        ∃ r b, toPendingTask (some t) = Except.ok r ∧ r.BaseTask = some b
          ∧ b.Payload.data = k.Payload.data
          ∧ ∀ (h : Heap) (key val : String),
              (h.mapassign k.Payload.data key val).mapaccess b.Payload.data key
                = some val)
    ∧ (∀ (t : asynq.ScheduledTask T asynq.Payload) (k : asynq.Task asynq.Payload),
      t.Task = some k →
        ∃ r b, toScheduledTask (some t) = Except.ok r ∧ r.BaseTask = some b
          ∧ b.Payload.data = k.Payload.data
          ∧ ∀ (h : Heap) (key val : String),
              (h.mapassign k.Payload.data key val).mapaccess b.Payload.data key
                = some val)
    ∧ (∀ (t : asynq.RetryTask T asynq.Payload) (k : asynq.Task asynq.Payload),
      t.Task = some k →
        ∃ r b, toRetryTask (some t) = Except.ok r ∧ r.BaseTask = some b
          ∧ b.Payload.data = k.Payload.data
          ∧ ∀ (h : Heap) (key val : String),
              (h.mapassign k.Payload.data key val).mapaccess b.Payload.data key
                = some val)
    ∧ (∀ (t : asynq.DeadTask T asynq.Payload) (k : asynq.Task asynq.Payload),
      t.Task = some k →
        ∃ r b, toDeadTask (some t) = Except.ok r ∧ r.BaseTask = some b
          ∧ b.Payload.data = k.Payload.data
          ∧ ∀ (h : Heap) (key val : String),
              (h.mapassign k.Payload.data key val).mapaccess b.Payload.data key
                = some val) := by
  have hstore : ∀ (h : Heap) (m : Nat) (key val : String),
      (h.mapassign m key val).mapaccess m key = some val := by
    intro h m key val
    simp [Heap.mapassign, Heap.mapaccess]
  exact
    ⟨fun t k ht => ⟨_, _, toActiveTask_some t k ht, rfl, rfl, fun h key val => hstore h _ key val⟩,
     fun t k ht => ⟨_, _, toPendingTask_some t k ht, rfl, rfl, fun h key val => hstore h _ key val⟩,
     fun t k ht => ⟨_, _, toScheduledTask_some t k ht, rfl, rfl, fun h key val => hstore h _ key val⟩,
     fun t k ht => ⟨_, _, toRetryTask_some t k ht, rfl, rfl, fun h key val => hstore h _ key val⟩,
     fun t k ht => ⟨_, _, toDeadTask_some t k ht, rfl, rfl, fun h key val => hstore h _ key val⟩⟩

/-- The map of the active task `abc`: a value stored through the source record
is read through the projected task. -/
theorem payload_shared_witness :
    mapActive.Task = some mapTask
      ∧ ∃ r b, toActiveTask (some mapActive) = Except.ok r ∧ r.BaseTask = some b
          ∧ b.Payload.data = mapTask.Payload.data
          ∧ ∀ (h : Heap) (key val : String),
              (h.mapassign mapTask.Payload.data key val).mapaccess b.Payload.data key
                = some val :=
  ⟨rfl, (@payload_shared Nat).1 mapActive mapTask rfl⟩

/-- C16, as stated, fails: every element of the slice of the dead task
records `d1` and `&asynq.DeadTask{ID: "d9"}` is non-nil, yet the list
projection returns no value: it panics on the nil embedded task of `d9`. -/
theorem list_projections_nil_element_fails :
    (∀ p ∈ (Slice.mk [some emailDead, some bareDead]).elems, p ≠ none)
      ∧ toDeadTasks (Slice.mk [some emailDead, some bareDead])
          = Except.error Panic.nilDereference
      ∧ ¬ ((∃ out, toDeadTasks (Slice.mk [some emailDead, some bareDead]) = Except.ok out)
            ↔ ∀ p ∈ (Slice.mk [some emailDead, some bareDead]).elems, p ≠ none) := by
  have hall : ∀ p ∈ (Slice.mk [some emailDead, some bareDead]).elems, p ≠ none := by
    intro p hp
    simp [Slice.elems] at hp
    rcases hp with rfl | rfl <;> simp
  refine ⟨hall, rfl, ?_⟩
  intro hiff
  obtain ⟨out, hout⟩ := hiff.mpr hall
  cases hout

/-- C16, amended: for each of the five list projections, an input slice
holding a nil element, or a non-nil record whose embedded task is nil, makes
the call fail with a nil dereference, so that no slice is returned; the call
returns a slice exactly when every element of the input is a non-nil record
whose embedded task is not nil. -/
theorem list_projections_nil_element {T P : Type} :
    (∀ s : Slice (Ptr (asynq.ActiveTask P)),
      (none ∈ s.elems → toActiveTasks s = Except.error Panic.nilDereference)
      ∧ ((∃ t, some t ∈ s.elems ∧ t.Task = none) →
          toActiveTasks s = Except.error Panic.nilDereference)
      ∧ ((∃ out, toActiveTasks s = Except.ok out)
          ↔ ∀ p ∈ s.elems, ∃ t, p = some t ∧ t.Task ≠ none))
    ∧ (∀ s : Slice (Ptr (asynq.PendingTask P)),
      (none ∈ s.elems → toPendingTasks s = Except.error Panic.nilDereference)
      ∧ ((∃ t, some t ∈ s.elems ∧ t.Task = none) →
          toPendingTasks s = Except.error Panic.nilDereference)
      ∧ ((∃ out, toPendingTasks s = Except.ok out)
          ↔ ∀ p ∈ s.elems, ∃ t, p = some t ∧ t.Task ≠ none))
    ∧ (∀ s : Slice (Ptr (asynq.ScheduledTask T P)),
      (none ∈ s.elems → toScheduledTasks s = Except.error Panic.nilDereference)
      ∧ ((∃ t, some t ∈ s.elems ∧ t.Task = none) →
          toScheduledTasks s = Except.error Panic.nilDereference)
      ∧ ((∃ out, toScheduledTasks s = Except.ok out)
          ↔ ∀ p ∈ s.elems, ∃ t, p = some t ∧ t.Task ≠ none))
    ∧ (∀ s : Slice (Ptr (asynq.RetryTask T P)),
      (none ∈ s.elems → toRetryTasks s = Except.error Panic.nilDereference)
      ∧ ((∃ t, some t ∈ s.elems ∧ t.Task = none) →
          toRetryTasks s = Except.error Panic.nilDereference)
      ∧ ((∃ out, toRetryTasks s = Except.ok out)
          ↔ ∀ p ∈ s.elems, ∃ t, p = some t ∧ t.Task ≠ none))
    ∧ (∀ s : Slice (Ptr (asynq.DeadTask T P)),
      (none ∈ s.elems → toDeadTasks s = Except.error Panic.nilDereference)
      ∧ ((∃ t, some t ∈ s.elems ∧ t.Task = none) →
          toDeadTasks s = Except.error Panic.nilDereference)
      ∧ ((∃ out, toDeadTasks s = Except.ok out)
          ↔ ∀ p ∈ s.elems, ∃ t, p = some t ∧ t.Task ≠ none)) := by
  refine ⟨?_, ?_, ?_, ?_, ?_⟩
  · intro s
    refine ⟨?_, ?_, ?_⟩
    · intro hmem
      exact rangeAssign_make_error toActiveTask toActiveTask_error s ⟨none, hmem, _, rfl⟩
    · rintro ⟨t, hmem, ht⟩
      exact rangeAssign_make_error toActiveTask toActiveTask_error s
        ⟨some t, hmem, _, toActiveTask_bare t ht⟩
    · refine Iff.trans (rangeAssign_make_ok_iff toActiveTask toActiveTask_error s) ?_
      constructor
      · intro hall p hp
        obtain ⟨t, k, hpt, hk⟩ := (toActiveTask_ok_iff p).mp (hall p hp)
        exact ⟨t, hpt, by simp [hk]⟩
      · intro hall p hp
        obtain ⟨t, hpt, ht⟩ := hall p hp
        obtain ⟨k, hk⟩ := some_of_ne_none t.Task ht
        exact (toActiveTask_ok_iff p).mpr ⟨t, k, hpt, hk⟩
  · intro s
    refine ⟨?_, ?_, ?_⟩
    · intro hmem
      exact rangeAssign_make_error toPendingTask toPendingTask_error s ⟨none, hmem, _, rfl⟩
    · rintro ⟨t, hmem, ht⟩
      exact rangeAssign_make_error toPendingTask toPendingTask_error s
        ⟨some t, hmem, _, toPendingTask_bare t ht⟩
    · refine Iff.trans (rangeAssign_make_ok_iff toPendingTask toPendingTask_error s) ?_
      constructor
      · intro hall p hp
        obtain ⟨t, k, hpt, hk⟩ := (toPendingTask_ok_iff p).mp (hall p hp)
        exact ⟨t, hpt, by simp [hk]⟩
      · intro hall p hp
        obtain ⟨t, hpt, ht⟩ := hall p hp
        obtain ⟨k, hk⟩ := some_of_ne_none t.Task ht
        exact (toPendingTask_ok_iff p).mpr ⟨t, k, hpt, hk⟩
  · intro s
    refine ⟨?_, ?_, ?_⟩
    · intro hmem
      exact rangeAssign_make_error toScheduledTask toScheduledTask_error s ⟨none, hmem, _, rfl⟩
    · rintro ⟨t, hmem, ht⟩
      exact rangeAssign_make_error toScheduledTask toScheduledTask_error s
        ⟨some t, hmem, _, toScheduledTask_bare t ht⟩
    · refine Iff.trans (rangeAssign_make_ok_iff toScheduledTask toScheduledTask_error s) ?_
      constructor
      · intro hall p hp
        obtain ⟨t, k, hpt, hk⟩ := (toScheduledTask_ok_iff p).mp (hall p hp)
        exact ⟨t, hpt, by simp [hk]⟩
      · intro hall p hp
        obtain ⟨t, hpt, ht⟩ := hall p hp
        obtain ⟨k, hk⟩ := some_of_ne_none t.Task ht
        exact (toScheduledTask_ok_iff p).mpr ⟨t, k, hpt, hk⟩
  · intro s
    refine ⟨?_, ?_, ?_⟩
    · intro hmem
      exact rangeAssign_make_error toRetryTask toRetryTask_error s ⟨none, hmem, _, rfl⟩
    · rintro ⟨t, hmem, ht⟩
      exact rangeAssign_make_error toRetryTask toRetryTask_error s
        ⟨some t, hmem, _, toRetryTask_bare t ht⟩
    · refine Iff.trans (rangeAssign_make_ok_iff toRetryTask toRetryTask_error s) ?_
      constructor
      · intro hall p hp
        obtain ⟨t, k, hpt, hk⟩ := (toRetryTask_ok_iff p).mp (hall p hp)
        exact ⟨t, hpt, by simp [hk]⟩
      · intro hall p hp
        obtain ⟨t, hpt, ht⟩ := hall p hp
        obtain ⟨k, hk⟩ := some_of_ne_none t.Task ht
        exact (toRetryTask_ok_iff p).mpr ⟨t, k, hpt, hk⟩
  · intro s
    refine ⟨?_, ?_, ?_⟩
    · intro hmem
      exact rangeAssign_make_error toDeadTask toDeadTask_error s ⟨none, hmem, _, rfl⟩
    · rintro ⟨t, hmem, ht⟩
      exact rangeAssign_make_error toDeadTask toDeadTask_error s
        ⟨some t, hmem, _, toDeadTask_bare t ht⟩
    · refine Iff.trans (rangeAssign_make_ok_iff toDeadTask toDeadTask_error s) ?_
      constructor
      · intro hall p hp
        obtain ⟨t, k, hpt, hk⟩ := (toDeadTask_ok_iff p).mp (hall p hp)
        exact ⟨t, hpt, by simp [hk]⟩
      · intro hall p hp
        obtain ⟨t, hpt, ht⟩ := hall p hp
        obtain ⟨k, hk⟩ := some_of_ne_none t.Task ht
        exact (toDeadTask_ok_iff p).mpr ⟨t, k, hpt, hk⟩

/-- A slice of retry tasks whose second element is nil is not projected: the
call fails with a nil dereference. -/
theorem list_projections_nil_element_witness :
    none ∈ (Slice.mk [some emailRetry, none]).elems
      ∧ toRetryTasks (Slice.mk [some emailRetry, none])
          = Except.error Panic.nilDereference :=
  ⟨by simp [Slice.elems],
   ((@list_projections_nil_element Nat String).2.2.2.1
     (Slice.mk [some emailRetry, none])).1 (by simp [Slice.elems])⟩

end Asynqmon
